import Mathlib

/-!
cassandra-autorepair: container selection and the repair loop of `main`

A shallow embedding of `main.go`.  Go strings are Lean `String`s, a Go
`(string, error)` result is a pair whose second component is `none` for a
`nil` error, and a Go `map[string]string` is an association list read with
`List.lookup`.
-/

namespace Autorepair

/-! ## Data model (the fields of `v1.Pod` that `main.go` reads) -/

/-- A Go `error`, represented by the text its `Error()` method returns. -/
abbrev GoError := String

/-- The part of `v1.Container` used by the program. -/
structure Container where
  Name : String
deriving DecidableEq, Repr

/-- The part of `v1.PodSpec` used by the program. -/
structure PodSpec where
  Containers : List Container
deriving DecidableEq, Repr

/-- The part of `v1.PodStatus` used by the program; `Phase` is a Go string type. -/
structure PodStatus where
  Phase : String
deriving DecidableEq, Repr

/-- The part of `v1.Pod` used by the program. -/
structure Pod where
  Name : String
  Namespace : String
  Annotations : List (String × String)
  Spec : PodSpec
  Status : PodStatus
deriving DecidableEq, Repr

/-- The package variable `autoRepairAnnotation` (line 23). -/
def autoRepairAnnotation : String := "cassandra-autorepair.jmkeyes.ca/autorepair"

/-- The package variable `nodetoolRepairCommand` (line 24). -/
def nodetoolRepairCommand : List String := ["nodetool", "repair", "-pr"]

/-- The Kubernetes constant `v1.PodRunning`. -/
def PodRunning : String := "Running"

/-! ## `selectContainer` (lines 56-71) -/

/-- The `for ... range pod.Spec.Containers` loop of lines 63-67: `true` as soon as a
container carries the requested name. -/
def containerLoop : List Container → String → Bool
  | [], _ => false
  | container :: rest, defaultContainerName =>
    if container.Name = defaultContainerName then true
    else containerLoop rest defaultContainerName

/-- The function `selectContainer` of lines 56-71. -/
def selectContainer (pod : Pod) (defaultContainerName : String) : String × Option GoError :=
  if h : pod.Spec.Containers.length = 1 then
    ((pod.Spec.Containers.get ⟨0, by omega⟩).Name, none)
  else if containerLoop pod.Spec.Containers defaultContainerName then
    (defaultContainerName, none)
  else
    ("", some "no such container")

/-! ## The line scanner (`bufio.NewScanner(reader)`, lines 161-165)

`bufio.Scanner` belongs to the Go standard library.  Its behaviour is rendered here
for a reader that hands over the stream one character at a time; the stream is
represented by its decoded text and sizes are counted in UTF-8 bytes. -/

/-- The errors a `bufio.Scanner` over a pipe can stop with. -/
inductive ScanError where
  | ErrTooLong
deriving DecidableEq, Repr

/-- The constant `bufio.MaxScanTokenSize`, the buffer limit of `bufio.NewScanner`. -/
def MaxScanTokenSize : Nat := 64 * 1024

/-- Size in bytes of a piece of the stream. -/
def byteLen (data : List Char) : Nat := (data.map Char.utf8Size).sum

/-- Go `bytes.IndexByte`: position of the first occurrence of `c`, if any. -/
def IndexByte : List Char → Char → Option Nat
  | [], _ => none
  | b :: rest, c => if b = c then some 0 else (IndexByte rest c).map (· + 1)

/-- Go `bufio.dropCR`: drop one terminal carriage return. -/
def dropCR (data : List Char) : List Char :=
  if 0 < data.length ∧ data.getLast? = some '\r' then data.dropLast else data

/-- Go `bufio.ScanLines`: the advance and the token found, if any (its error is always `nil`). -/
def ScanLines (data : List Char) (atEOF : Bool) : Nat × Option (List Char) :=
  if atEOF = true ∧ data.length = 0 then (0, none)
  else
    match IndexByte data '\n' with
    | some i => (i + 1, some (dropCR (data.take i)))
    | none => if atEOF then (data.length, some (dropCR data)) else (0, none)

/-- What a scanner driven until `Scan` returns `false` has produced: the tokens in
order, the error it stopped with (`none` for a plain end of input) and the part of the
stream it never read. -/
structure ScanResult where
  tokens : List (List Char)
  err : Option ScanError
  unread : List Char
deriving DecidableEq, Repr

/-- Put one more token in front of a scan result. -/
def ScanResult.push (token : List Char) (r : ScanResult) : ScanResult :=
  { r with tokens := token :: r.tokens }

/-- Go `(*Scanner).Scan` called until it returns `false`.  `buf` is the data held in
the buffer and not yet turned into a token.  Each round first refuses to read when the
buffer already holds `maxTokenSize` bytes (`ErrTooLong`), otherwise reads, and then
offers the buffer to the split function `ScanLines`; at the end of the stream the
split function is offered the remainder with `atEOF = true`. -/
def Scanner.scanAll (maxTokenSize : Nat) : List Char → List Char → ScanResult
  | buf, [] =>
    if maxTokenSize ≤ byteLen buf then ⟨[], some .ErrTooLong, []⟩
    else
      match ScanLines buf true with
      | (_, some token) => ⟨[token], none, []⟩
      | (_, none) => ⟨[], none, []⟩
  | buf, c :: rest =>
    if maxTokenSize ≤ byteLen buf then ⟨[], some .ErrTooLong, c :: rest⟩
    else
      match ScanLines (buf ++ [c]) false with
      | (advance, some token) =>
        (Scanner.scanAll maxTokenSize ((buf ++ [c]).drop advance) rest).push token
      | (_, none) => Scanner.scanAll maxTokenSize (buf ++ [c]) rest

/-! ## The loop of `main` (lines 99-169) -/

/-- The `v1.PodExecOptions` value of lines 116-123. -/
structure PodExecOptions where
  Command : List String
  Container : String
  Stdin : Bool
  Stdout : Bool
  Stderr : Bool
  TTY : Bool
deriving DecidableEq, Repr

/-- The REST request assembled on lines 112-123. -/
structure ExecRequest where
  Resource : String
  Name : String
  Namespace : String
  SubResource : String
  Params : PodExecOptions
deriving DecidableEq, Repr

/-- What the program gets from outside: the value of `POD_NAMESPACE`, the outcome of
`remotecommand.NewSPDYExecutor` for a request (`some err` when it fails) and, for a
request that is streamed, the bytes the remote command writes to the pipe together
with the error `StreamWithContext` returns. -/
structure World where
  namespaceName : String
  NewSPDYExecutor : ExecRequest → Option GoError
  StreamWithContext : ExecRequest → List Char × Option GoError

/-- The steps of the loop, taken by the main goroutine, in the order they happen. -/
inductive Event where
  /-- A message given to `log.Printf`, as formatted. -/
  | log (msg : String)
  /-- The condition of line 101 held and `selectContainer(pod, value)` is called (line 102). -/
  | select (pod : Pod) (value : String)
  /-- The exec request of lines 112-123 is built. -/
  | request (req : ExecRequest)
  /-- The executor exists and the remote command is streamed (line 155). -/
  | stream (req : ExecRequest)
deriving DecidableEq, Repr

/-- How one iteration of the loop ends: it moves on to the next pod, or `main` returns. -/
inductive Control where
  | next
  | ret
deriving DecidableEq, Repr

/-- The condition of line 101: `value, ok := pod.Annotations[autoRepairAnnotation]`
followed by `ok && pod.Status.Phase == v1.PodRunning`; gives `value` when it holds. -/
def eligible (pod : Pod) : Option String :=
  let found := pod.Annotations.lookup autoRepairAnnotation
  let value := found.getD ""
  let ok := found.isSome
  if ok = true ∧ pod.Status.Phase = PodRunning then some value else none

/-- The request built on lines 112-123 for `pod` and the selected `container`. -/
def execRequest (namespaceName : String) (pod : Pod) (container : String) : ExecRequest :=
  { Resource := "pods"
    Name := pod.Name
    Namespace := namespaceName
    SubResource := "exec"
    Params :=
      { Command := nodetoolRepairCommand
        Container := container
        Stdin := false
        Stdout := true
        Stderr := true
        TTY := true } }

/-- The messages of the loop `for scanner.Scan() { log.Printf("   %s\n", scanner.Text()) }`. -/
def relayLog (tokens : List (List Char)) : List Event :=
  tokens.map (fun token => Event.log ("   " ++ String.mk token ++ "\n"))

/-- Lines 133-165 on the side of the main goroutine, for a request whose executor
exists: the command is streamed into the pipe and the scanner loop logs each line. -/
def relay (w : World) (req : ExecRequest) : List Event :=
  let scan := Scanner.scanAll MaxScanTokenSize [] (w.StreamWithContext req).1
  Event.stream req :: relayLog scan.tokens

/-- The message of the goroutine of lines 142-158 for a streamed request, logged when
`StreamWithContext` returns an error.  The goroutine runs beside the scanner loop, so
the message is not a step of the loop and has no place in its trace: the program does
not order it with the messages of lines 164 and 167.  `StreamWithContext` returns once
every byte has been taken from the pipe; when the scanner gives up while part of the
stream is unread, the goroutine stays blocked on the pipe for the rest of the loop and
nothing is recorded for it. -/
def goroutineLog (w : World) (req : ExecRequest) : List String :=
  match (w.StreamWithContext req).2 with
  | some err =>
    if (Scanner.scanAll MaxScanTokenSize [] (w.StreamWithContext req).1).unread = [] then
      ["Failed to get result: " ++ err]
    else []
  | none => []

/-- The body of the `if` of line 101 (lines 102-167) for a pod that passed it. -/
def repairBody (w : World) (pod : Pod) (value : String) : List Event × Control :=
  match selectContainer pod value with
  | (_, some err) =>
    ([Event.select pod value,
      Event.log ("Unable to match a container in " ++ pod.Name ++ ": " ++ err)], Control.next)
  | (container, none) =>
    let started :=
      Event.log ("Started repair of " ++ pod.Namespace ++ "/" ++ pod.Name ++ " [" ++ container ++ "]\n")
    let req := execRequest w.namespaceName pod container
    match w.NewSPDYExecutor req with
    | some err =>
      ([Event.select pod value, started, Event.request req,
        Event.log ("Failed to exec: " ++ err)], Control.ret)
    | none =>
      let finished :=
        Event.log ("Finished repair of " ++ pod.Namespace ++ "/" ++ pod.Name ++ " [" ++ container ++ "]\n")
      (Event.select pod value :: started :: Event.request req :: relay w req ++ [finished],
        Control.next)

/-- The outcome of the loop: the steps of the main goroutine and whether `main`
returned from inside the loop. -/
structure Run where
  trace : List Event
  returned : Bool
deriving DecidableEq, Repr

/-- The loop `for _, pod := range pods.Items` of lines 99-169. -/
def mainLoop (w : World) : List Pod → Run
  | [] => ⟨[], false⟩
  | pod :: rest =>
    match eligible pod with
    | some value =>
      match repairBody w pod value with
      | (events, Control.next) =>
        let r := mainLoop w rest
        ⟨events ++ r.trace, r.returned⟩
      | (events, Control.ret) => ⟨events, true⟩
    | none => mainLoop w rest

/-! ## Readings of a trace -/

/-- The messages logged, in order. -/
def logged : List Event → List String
  | [] => []
  | Event.log msg :: rest => msg :: logged rest
  | _ :: rest => logged rest

/-- The calls of `selectContainer`, in order: the pod and the requested name. -/
def selections : List Event → List (Pod × String)
  | [] => []
  | Event.select pod value :: rest => (pod, value) :: selections rest
  | _ :: rest => selections rest

/-- The exec requests built, in order. -/
def requests : List Event → List ExecRequest
  | [] => []
  | Event.request req :: rest => req :: requests rest
  | _ :: rest => requests rest

/-- The requests whose command was streamed, in order. -/
def streamed : List Event → List ExecRequest
  | [] => []
  | Event.stream req :: rest => req :: streamed rest
  | _ :: rest => streamed rest

/-- A message mentions a name when the name occurs in it. -/
def mentions (msg name : String) : Prop := name.data <:+: msg.data

instance (msg name : String) : Decidable (mentions msg name) :=
  inferInstanceAs (Decidable (name.data <:+: msg.data))

/-! ## Definitions used to state the properties -/

/-- The pods of a listing that carry the autorepair annotation key and are in phase
`Running`, in the order of the listing, each with the value stored under the key. -/
def markedRunning (pods : List Pod) : List (Pod × String) :=
  (pods.filter (fun pod =>
      decide ( autoRepairAnnotation ∈ pod.Annotations.map Prod.fst ∧ pod.Status.Phase = "Running"))).map
    (fun pod => (pod, (pod.Annotations.lookup autoRepairAnnotation).getD ""))

/-- A pod with a single container, marked with a name that matches no container. -/
def podSingle : Pod :=
  ⟨"cassandra-0", "db", [( autoRepairAnnotation, "missing")], ⟨[⟨"cassandra"⟩]⟩, ⟨"Running"⟩⟩

/-- A pod with two containers, marked with the name of the first. -/
def podPair : Pod :=
  ⟨"cassandra-1", "db", [( autoRepairAnnotation, "cassandra")], ⟨[⟨"cassandra"⟩, ⟨"sidecar"⟩]⟩, ⟨"Running"⟩⟩

/-- A pod with two containers, marked with a name that matches neither. -/
def podUnmatched : Pod :=
  ⟨"cassandra-2", "db", [( autoRepairAnnotation, "nodetool")], ⟨[⟨"cassandra"⟩, ⟨"sidecar"⟩]⟩, ⟨"Running"⟩⟩

/-- A marked pod that is not running. -/
def podPending : Pod :=
  ⟨"cassandra-3", "db", [( autoRepairAnnotation, "cassandra")], ⟨[⟨"cassandra"⟩]⟩, ⟨"Pending"⟩⟩

/-- A running pod with two containers and no autorepair annotation. -/
def podUnmarked : Pod :=
  ⟨"cassandra-4", "db", [("app", "cassandra")], ⟨[⟨"cassandra"⟩, ⟨"sidecar"⟩]⟩, ⟨"Running"⟩⟩

/-- A running pod with two containers whose autorepair annotation is the empty string. -/
def podEmptyMark : Pod :=
  ⟨"cassandra-5", "db", [( autoRepairAnnotation, "")], ⟨[⟨"cassandra"⟩, ⟨"sidecar"⟩]⟩, ⟨"Running"⟩⟩

/-- A world in which every executor is set up and every command prints two lines. -/
def quietWorld : World :=
  ⟨"db", fun _ => none, fun _ => ("Starting repair\r\nRepair completed\r\n".data, none)⟩

/-- The request the loop builds for a pod: the one for the selected container when the
pod passes the condition of line 101 and selection succeeds, none otherwise. -/
def plannedRequest (w : World) (pod : Pod) : Option ExecRequest :=
  match eligible pod with
  | some value =>
    match selectContainer pod value with
    | (container, none) => some (execRequest w.namespaceName pod container)
    | (_, some _) => none
  | none => none

/-- A world in which the executor cannot be set up for the pod named `cassandra-0`. -/
def brokenWorld : World :=
  ⟨"db", fun req => if req.Name = "cassandra-0" then some "unable to load root certificates" else none,
    fun _ => ("Repair completed\n".data, none)⟩

/-- The bytes on the pipe when the remote stream writes the given lines in order, each
followed by a line feed. -/
def written (lines : List (List Char)) : List Char :=
  lines.flatMap (fun line => line ++ ['\n'])

/-- A line of `bufio.MaxScanTokenSize` letters. -/
def longLine : List Char := List.replicate MaxScanTokenSize 'a'

/-- A world in which the stream of every command breaks after one line. -/
def flakyWorld : World :=
  ⟨"db", fun _ => none, fun _ => ("Starting repair\r\n".data, some "connection reset by peer")⟩

/-- A world in which every command prints a line of `bufio.MaxScanTokenSize` letters
and then a second line. -/
def longLineWorld : World :=
  ⟨"db", fun _ => none, fun _ => (written [longLine, "Repair completed".data], none)⟩

end Autorepair

open Autorepair

/-! ## Auxiliary lemmas -/

theorem containerLoop_iff (cs : List Container) (r : String) :
    containerLoop cs r = true ↔ ∃ c ∈ cs, c.Name = r := by
  induction cs with
  | nil => simp [containerLoop]
  | cons c cs ih =>
    unfold containerLoop
    by_cases h : c.Name = r
    · simp [h]
    · simp [h, ih]

theorem selections_append (xs ys : List Event) :
    selections (xs ++ ys) = selections xs ++ selections ys := by
  induction xs with
  | nil => rfl
  | cons e xs ih => cases e <;> simp [selections, ih]

theorem requests_append (xs ys : List Event) :
    requests (xs ++ ys) = requests xs ++ requests ys := by
  induction xs with
  | nil => rfl
  | cons e xs ih => cases e <;> simp [requests, ih]

theorem streamed_append (xs ys : List Event) :
    streamed (xs ++ ys) = streamed xs ++ streamed ys := by
  induction xs with
  | nil => rfl
  | cons e xs ih => cases e <;> simp [streamed, ih]

theorem logged_append (xs ys : List Event) :
    logged (xs ++ ys) = logged xs ++ logged ys := by
  induction xs with
  | nil => rfl
  | cons e xs ih => cases e <;> simp [logged, ih]

theorem selections_relayLog (ts : List (List Char)) : selections (relayLog ts) = [] := by
  induction ts with
  | nil => rfl
  | cons t ts ih => simpa [relayLog, selections] using ih

theorem requests_relayLog (ts : List (List Char)) : requests (relayLog ts) = [] := by
  induction ts with
  | nil => rfl
  | cons t ts ih => simpa [relayLog, requests] using ih

theorem streamed_relayLog (ts : List (List Char)) : streamed (relayLog ts) = [] := by
  induction ts with
  | nil => rfl
  | cons t ts ih => simpa [relayLog, streamed] using ih

theorem logged_relayLog (ts : List (List Char)) :
    logged (relayLog ts) = ts.map (fun token => "   " ++ String.mk token ++ "\n") := by
  induction ts with
  | nil => rfl
  | cons t ts ih => simpa [relayLog, logged] using ih

theorem selections_relay (w : World) (req : ExecRequest) : selections (relay w req) = [] := by
  unfold relay
  simp [selections, selections_relayLog]

theorem requests_relay (w : World) (req : ExecRequest) : requests (relay w req) = [] := by
  unfold relay
  simp [requests, requests_relayLog]

theorem streamed_relay (w : World) (req : ExecRequest) : streamed (relay w req) = [req] := by
  unfold relay
  simp [streamed, streamed_relayLog]

/-- The three ways an iteration over an eligible pod can go. -/
theorem repairBody_cases (w : World) (pod : Pod) (value : String) :
    (∃ name err, selectContainer pod value = (name, some err) ∧
      repairBody w pod value =
        ([Event.select pod value,
          Event.log ("Unable to match a container in " ++ pod.Name ++ ": " ++ err)], Control.next)) ∨
    (∃ name err, selectContainer pod value = (name, none) ∧
      w.NewSPDYExecutor (execRequest w.namespaceName pod name) = some err ∧
      repairBody w pod value =
        ([Event.select pod value,
          Event.log ("Started repair of " ++ pod.Namespace ++ "/" ++ pod.Name ++ " [" ++ name ++ "]\n"),
          Event.request (execRequest w.namespaceName pod name),
          Event.log ("Failed to exec: " ++ err)], Control.ret)) ∨
    (∃ name, selectContainer pod value = (name, none) ∧
      w.NewSPDYExecutor (execRequest w.namespaceName pod name) = none ∧
      repairBody w pod value =
        (Event.select pod value ::
          Event.log ("Started repair of " ++ pod.Namespace ++ "/" ++ pod.Name ++ " [" ++ name ++ "]\n") ::
          Event.request (execRequest w.namespaceName pod name) ::
          relay w (execRequest w.namespaceName pod name) ++
          [Event.log ("Finished repair of " ++ pod.Namespace ++ "/" ++ pod.Name ++ " [" ++ name ++ "]\n")],
          Control.next)) := by
  unfold repairBody
  rcases hs : selectContainer pod value with ⟨name, _ | err⟩
  · rcases he : w.NewSPDYExecutor (execRequest w.namespaceName pod name) with _ | err
    · right; right
      exact ⟨name, rfl, he, by simp [he]⟩
    · right; left
      exact ⟨name, err, rfl, he, by simp [he]⟩
  · left
    exact ⟨name, err, rfl, rfl⟩

theorem selections_repairBody (w : World) (pod : Pod) (value : String) :
    selections (repairBody w pod value).1 = [(pod, value)] := by
  rcases repairBody_cases w pod value with ⟨_, _, _, h⟩ | ⟨_, _, _, _, h⟩ | ⟨name, _, _, h⟩
  · simp [h, selections]
  · simp [h, selections]
  · have hr := selections_relay w (execRequest w.namespaceName pod name)
    rw [h]
    generalize relay w (execRequest w.namespaceName pod name) = r at hr
    simp [selections, selections_append, hr]

theorem eligible_eq_some (pod : Pod) (value : String) :
    eligible pod = some value ↔
      pod.Annotations.lookup autoRepairAnnotation = some value ∧ pod.Status.Phase = PodRunning := by
  unfold eligible
  rcases h : pod.Annotations.lookup autoRepairAnnotation with _ | v
  · simp
  · by_cases hp : pod.Status.Phase = PodRunning <;> simp [hp]

theorem eligible_eq_none (pod : Pod) :
    eligible pod = none ↔
      pod.Annotations.lookup autoRepairAnnotation = none ∨ pod.Status.Phase ≠ PodRunning := by
  unfold eligible
  rcases h : pod.Annotations.lookup autoRepairAnnotation with _ | v
  · simp
  · by_cases hp : pod.Status.Phase = PodRunning <;> simp [hp]

theorem lookup_isSome_iff (l : List (String × String)) (k : String) :
    (l.lookup k).isSome = true ↔ k ∈ l.map Prod.fst := by
  induction l with
  | nil => simp
  | cons kv l ih =>
    rcases kv with ⟨k', v⟩
    by_cases h : k = k'
    · subst h; simp [List.lookup]
    · have h' : (k == k') = false := by simpa using h
      simp [List.lookup, h', ih, h]

theorem lookup_mem (l : List (String × String)) (k v : String)
    (h : l.lookup k = some v) : (k, v) ∈ l := by
  induction l with
  | nil => simp at h
  | cons kv l ih =>
    rcases kv with ⟨k', v'⟩
    by_cases hk : k = k'
    · subst hk
      simp [List.lookup] at h
      simp [h]
    · have h' : (k == k') = false := by simpa using hk
      simp [List.lookup, h'] at h
      exact List.mem_cons_of_mem _ (ih h)

theorem filterMap_eligible (pods : List Pod) :
    pods.filterMap (fun pod => (eligible pod).map (fun value => (pod, value))) =
      markedRunning pods := by
  induction pods with
  | nil => rfl
  | cons pod pods ih =>
    unfold markedRunning at ih ⊢
    rcases h : eligible pod with _ | value
    · have hn := (eligible_eq_none pod).1 h
      have hd : decide ( autoRepairAnnotation ∈ pod.Annotations.map Prod.fst ∧
          pod.Status.Phase = "Running") = false := by
        apply decide_eq_false
        rintro ⟨h1, h2⟩
        rcases hn with hn | hn
        · have := (lookup_isSome_iff _ _).2 h1
          simp [hn] at this
        · exact hn h2
      rw [List.filterMap_cons_none (by simp only [h, Option.map_none']), List.filter_cons, hd]
      simpa using ih
    · have hs := (eligible_eq_some pod value).1 h
      have hd : decide ( autoRepairAnnotation ∈ pod.Annotations.map Prod.fst ∧
          pod.Status.Phase = "Running") = true :=
        decide_eq_true ⟨(lookup_isSome_iff _ _).1 (by simp [hs.1]), hs.2⟩
      rw [List.filterMap_cons_some (b := (pod, value)) (by simp only [h, Option.map_some']), List.filter_cons, hd]
      simpa [hs.1] using ih

theorem mainLoop_cons_skip (w : World) (pod : Pod) (rest : List Pod)
    (h : eligible pod = none) : mainLoop w (pod :: rest) = mainLoop w rest := by
  rw [mainLoop]; simp only [h]

theorem mainLoop_cons_next (w : World) (pod : Pod) (rest : List Pod) (value : String)
    (events : List Event) (h : eligible pod = some value)
    (hb : repairBody w pod value = (events, Control.next)) :
    mainLoop w (pod :: rest) =
      ⟨events ++ (mainLoop w rest).trace, (mainLoop w rest).returned⟩ := by
  rw [mainLoop]; simp only [h, hb]

theorem mainLoop_cons_ret (w : World) (pod : Pod) (rest : List Pod) (value : String)
    (events : List Event) (h : eligible pod = some value)
    (hb : repairBody w pod value = (events, Control.ret)) :
    mainLoop w (pod :: rest) = ⟨events, true⟩ := by
  rw [mainLoop]; simp only [h, hb]

theorem selections_mainLoop_initial (w : World) (pods : List Pod) :
    selections (mainLoop w pods).trace <+:
        pods.filterMap (fun pod => (eligible pod).map (fun value => (pod, value))) ∧
      ((mainLoop w pods).returned = false →
        selections (mainLoop w pods).trace =
          pods.filterMap (fun pod => (eligible pod).map (fun value => (pod, value)))) := by
  induction pods with
  | nil => simp [mainLoop, selections]
  | cons pod pods ih =>
    rcases h : eligible pod with _ | value
    · rw [List.filterMap_cons_none (by simp only [h, Option.map_none']),
        mainLoop_cons_skip w pod pods h]
      exact ih
    · rw [List.filterMap_cons_some (b := (pod, value)) (by simp only [h, Option.map_some'])]
      have hsel := selections_repairBody w pod value
      rcases hb : repairBody w pod value with ⟨events, _ | _⟩
      · rw [hb] at hsel
        rw [mainLoop_cons_next w pod pods value events h hb]
        simp only [selections_append, hsel, List.singleton_append]
        refine ⟨?_, fun hr => ?_⟩
        · exact (List.prefix_cons_inj _).2 ih.1
        · rw [ih.2 hr]
      · rw [hb] at hsel
        rw [mainLoop_cons_ret w pod pods value events h hb]
        simp only [hsel]
        refine ⟨?_, fun hr => ?_⟩
        · exact ⟨_, rfl⟩
        · simp at hr

/-! ## C1 -/

theorem selectContainer_one (pod : Pod) (requested : String)
    (h : pod.Spec.Containers.length = 1) :
    ∃ c, pod.Spec.Containers = [c] ∧ selectContainer pod requested = (c.Name, none) := by
  rcases hc : pod.Spec.Containers with _ | ⟨c, _ | ⟨d, rest⟩⟩
  · simp [hc] at h
  · refine ⟨c, rfl, ?_⟩
    unfold selectContainer
    simp [hc]
  · simp [hc] at h

/-- C1: for a pod with exactly one container, `selectContainer` succeeds and returns
that container's name, whatever name is requested. -/
theorem selectContainer_single (pod : Pod) (requested : String)
    (h : pod.Spec.Containers.length = 1) :
    ∃ c, pod.Spec.Containers = [c] ∧ selectContainer pod requested = (c.Name, none) :=
  selectContainer_one pod requested h

/-- C1 at a single-container pod, for the empty request and for an unmatched one. -/
theorem selectContainer_single_witness :
    podSingle.Spec.Containers.length = 1 ∧
      (∃ c, podSingle.Spec.Containers = [c] ∧ selectContainer podSingle "" = (c.Name, none)) ∧
      selectContainer podSingle "" = ("cassandra", none) ∧
      selectContainer podSingle "missing" = ("cassandra", none) :=
  ⟨by decide, selectContainer_single podSingle "" (by decide), by decide, by decide⟩

/-! ## C2 -/

theorem selectContainer_many (pod : Pod) (requested : String)
    (h : pod.Spec.Containers.length ≠ 1) :
    ((selectContainer pod requested).2 = none ↔ ∃ c ∈ pod.Spec.Containers, c.Name = requested) ∧
      ((∃ c ∈ pod.Spec.Containers, c.Name = requested) →
        selectContainer pod requested = (requested, none)) ∧
      ((¬ ∃ c ∈ pod.Spec.Containers, c.Name = requested) →
        selectContainer pod requested = ("", some "no such container")) := by
  unfold selectContainer
  by_cases hl : containerLoop pod.Spec.Containers requested = true
  · have he := (containerLoop_iff _ _).1 hl
    simp [h, hl, he]
  · have he : ¬ ∃ c ∈ pod.Spec.Containers, c.Name = requested :=
      fun he => hl ((containerLoop_iff _ _).2 he)
    simp [h, hl, he]

/-- C2: for a pod whose number of containers is not one, `selectContainer` succeeds
exactly when some container has the requested name and then returns that name;
otherwise it returns the empty string with the error "no such container". -/
theorem selectContainer_not_single (pod : Pod) (requested : String)
    (h : pod.Spec.Containers.length ≠ 1) :
    ((selectContainer pod requested).2 = none ↔ ∃ c ∈ pod.Spec.Containers, c.Name = requested) ∧
      ((∃ c ∈ pod.Spec.Containers, c.Name = requested) →
        selectContainer pod requested = (requested, none)) ∧
      ((¬ ∃ c ∈ pod.Spec.Containers, c.Name = requested) →
        selectContainer pod requested = ("", some "no such container")) :=
  selectContainer_many pod requested h

/-- C2 at a pod with two containers and a request that names neither. -/
theorem selectContainer_not_single_witness :
    podUnmatched.Spec.Containers.length ≠ 1 ∧
      (((selectContainer podUnmatched "nodetool").2 = none ↔
          ∃ c ∈ podUnmatched.Spec.Containers, c.Name = "nodetool") ∧
        ((∃ c ∈ podUnmatched.Spec.Containers, c.Name = "nodetool") →
          selectContainer podUnmatched "nodetool" = ("nodetool", none)) ∧
        ((¬ ∃ c ∈ podUnmatched.Spec.Containers, c.Name = "nodetool") →
          selectContainer podUnmatched "nodetool" = ("", some "no such container"))) :=
  ⟨by decide, selectContainer_not_single podUnmatched "nodetool" (by decide)⟩

/-! ## C3 -/

/-- C3: in a listing of five pods of which the first, the fourth and the fifth carry
the annotation key and are running, the executor cannot be set up for the first:
`main` returns on line 130 and the loop calls `selectContainer` for the first pod only,
so the fourth and the fifth pod, which satisfy the condition of line 101, are dropped
from the pods processed. -/
theorem eligible_pods_dropped_after_return :
    markedRunning [podSingle, podPending, podUnmarked, podPair, podUnmatched] =
        [(podSingle, "missing"), (podPair, "cassandra"), (podUnmatched, "nodetool")] ∧
      eligible podPair = some "cassandra" ∧ eligible podUnmatched = some "nodetool" ∧
      (mainLoop brokenWorld [podSingle, podPending, podUnmarked, podPair, podUnmatched]).returned = true ∧
      selections (mainLoop brokenWorld [podSingle, podPending, podUnmarked, podPair, podUnmatched]).trace =
        [(podSingle, "missing")] := by
  decide

/-! ## Auxiliary lemmas on the loop -/

theorem selectContainer_err (pod : Pod) (value name : String) (err : GoError)
    (h : selectContainer pod value = (name, some err)) :
    name = "" ∧ err = "no such container" := by
  unfold selectContainer at h
  split at h
  · simp at h
  · split at h
    · simp at h
    · simp only [Prod.mk.injEq, Option.some.injEq] at h
      exact ⟨h.1.symm, h.2.symm⟩

theorem selectContainer_mem (pod : Pod) (value name : String)
    (h : selectContainer pod value = (name, none)) :
    ∃ c ∈ pod.Spec.Containers, c.Name = name := by
  by_cases h1 : pod.Spec.Containers.length = 1
  · obtain ⟨c, hc, hs⟩ := selectContainer_one pod value h1
    rw [hs] at h
    simp only [Prod.mk.injEq, and_true] at h
    exact ⟨c, by simp [hc], h⟩
  · have h2 := selectContainer_many pod value h1
    have h3 := h2.1.1 (by rw [h])
    have h4 := h2.2.1 h3
    rw [h4] at h
    simp only [Prod.mk.injEq, and_true] at h
    rw [← h]; exact h3

theorem requests_repairBody_ok (w : World) (pod : Pod) (value name : String)
    (h : selectContainer pod value = (name, none)) :
    requests (repairBody w pod value).1 = [execRequest w.namespaceName pod name] := by
  rcases repairBody_cases w pod value with ⟨_, _, h1, _⟩ | ⟨n, _, h1, _, hb⟩ | ⟨n, h1, _, hb⟩
  · rw [h] at h1; simp at h1
  · rw [h] at h1
    simp only [Prod.mk.injEq, and_true] at h1
    subst h1
    simp [hb, requests]
  · rw [h] at h1
    simp only [Prod.mk.injEq, and_true] at h1
    subst h1
    have hr := requests_relay w (execRequest w.namespaceName pod name)
    rw [hb]
    generalize relay w (execRequest w.namespaceName pod name) = r at hr
    simp [requests, requests_append, hr]

theorem requests_repairBody_err (w : World) (pod : Pod) (value name : String) (err : GoError)
    (h : selectContainer pod value = (name, some err)) :
    requests (repairBody w pod value).1 = [] := by
  rcases repairBody_cases w pod value with ⟨_, _, _, hb⟩ | ⟨n, _, h1, _, _⟩ | ⟨n, h1, _, _⟩
  · simp [hb, requests]
  · rw [h] at h1; simp at h1
  · rw [h] at h1; simp at h1

theorem mainLoop_single (w : World) (pod : Pod) (value : String)
    (h : eligible pod = some value) :
    (mainLoop w [pod]).trace = (repairBody w pod value).1 := by
  rcases hb : repairBody w pod value with ⟨events, _ | _⟩
  · rw [mainLoop_cons_next w pod [] value events h hb]; simp [mainLoop]
  · rw [mainLoop_cons_ret w pod [] value events h hb]

theorem mainLoop_append (w : World) (xs ys : List Pod)
    (h : (mainLoop w xs).returned = false) :
    mainLoop w (xs ++ ys) =
      ⟨(mainLoop w xs).trace ++ (mainLoop w ys).trace, (mainLoop w ys).returned⟩ := by
  induction xs with
  | nil => simp [mainLoop]
  | cons pod xs ih =>
    rcases he : eligible pod with _ | value
    · rw [mainLoop_cons_skip w pod xs he] at h ⊢
      rw [List.cons_append, mainLoop_cons_skip w pod (xs ++ ys) he]
      exact ih h
    · rcases hb : repairBody w pod value with ⟨events, _ | _⟩
      · rw [mainLoop_cons_next w pod xs value events he hb] at h ⊢
        rw [List.cons_append, mainLoop_cons_next w pod (xs ++ ys) value events he hb, ih h]
        simp
      · rw [mainLoop_cons_ret w pod xs value events he hb] at h
        simp at h

theorem mainLoop_of_exec_ok (w : World) (pods : List Pod)
    (hexec : ∀ q ∈ pods, ∀ req, plannedRequest w q = some req → w.NewSPDYExecutor req = none) :
    (mainLoop w pods).returned = false ∧
      requests (mainLoop w pods).trace = pods.filterMap (plannedRequest w) ∧
      streamed (mainLoop w pods).trace = pods.filterMap (plannedRequest w) ∧
      ∀ q ∈ pods, ∀ value name, eligible q = some value → selectContainer q value = (name, none) →
        ("Finished repair of " ++ q.Namespace ++ "/" ++ q.Name ++ " [" ++ name ++ "]\n") ∈
          logged (mainLoop w pods).trace := by
  induction pods with
  | nil => simp [mainLoop, requests, streamed]
  | cons pod pods ih =>
    have ih := ih (fun q hq => hexec q (List.mem_cons_of_mem _ hq))
    rcases he : eligible pod with _ | value
    · rw [mainLoop_cons_skip w pod pods he]
      have hp : plannedRequest w pod = none := by simp [plannedRequest, he]
      rw [List.filterMap_cons_none hp]
      refine ⟨ih.1, ih.2.1, ih.2.2.1, ?_⟩
      intro q hq v n hv hs
      rcases List.mem_cons.1 hq with rfl | hq
      · rw [he] at hv; simp at hv
      · exact ih.2.2.2 q hq v n hv hs
    · rcases repairBody_cases w pod value with ⟨n, e, h1, hb⟩ | ⟨n, e, h1, h2, _⟩ | ⟨n, h1, _, hb⟩
      · rw [mainLoop_cons_next w pod pods value _ he hb]
        have hp : plannedRequest w pod = none := by simp [plannedRequest, he, h1]
        rw [List.filterMap_cons_none hp]
        refine ⟨ih.1, ?_, ?_, ?_⟩
        · simpa [requests] using ih.2.1
        · simpa [streamed] using ih.2.2.1
        · intro q hq v m hv hs
          rcases List.mem_cons.1 hq with rfl | hq
          · rw [he] at hv
            simp only [Option.some.injEq] at hv
            subst hv
            rw [h1] at hs; simp at hs
          · have := ih.2.2.2 q hq v m hv hs
            simp only [logged_append, List.mem_append]
            exact Or.inr this
      · have hp : plannedRequest w pod = some (execRequest w.namespaceName pod n) := by
          simp [plannedRequest, he, h1]
        rw [hexec pod (List.mem_cons_self _ _) _ hp] at h2
        simp at h2
      · rw [mainLoop_cons_next w pod pods value _ he hb]
        have hp : plannedRequest w pod = some (execRequest w.namespaceName pod n) := by
          simp [plannedRequest, he, h1]
        rw [List.filterMap_cons_some hp]
        have hr := requests_relay w (execRequest w.namespaceName pod n)
        have hst := streamed_relay w (execRequest w.namespaceName pod n)
        generalize relay w (execRequest w.namespaceName pod n) = r at hr hst
        refine ⟨ih.1, ?_, ?_, ?_⟩
        · simp [requests, requests_append, hr, ih.2.1]
        · simp [streamed, streamed_append, hst, ih.2.2.1]
        · intro q hq v m hv hs
          rcases List.mem_cons.1 hq with rfl | hq
          · rw [he] at hv
            simp only [Option.some.injEq] at hv
            subst hv
            rw [h1] at hs
            simp only [Prod.mk.injEq, and_true] at hs
            subst hs
            simp [logged, logged_append]
          · have := ih.2.2.2 q hq v m hv hs
            simp only [logged_append, List.mem_append]
            exact Or.inr this

theorem requests_mainLoop_mem (w : World) (pods : List Pod) (req : ExecRequest)
    (h : req ∈ requests (mainLoop w pods).trace) :
    ∃ pod ∈ pods, ∃ value name, eligible pod = some value ∧
      selectContainer pod value = (name, none) ∧ req = execRequest w.namespaceName pod name := by
  induction pods with
  | nil => simp [mainLoop, requests] at h
  | cons pod pods ih =>
    rcases he : eligible pod with _ | value
    · rw [mainLoop_cons_skip w pod pods he] at h
      obtain ⟨q, hq, rest⟩ := ih h
      exact ⟨q, List.mem_cons_of_mem _ hq, rest⟩
    · have hin : req ∈ requests (repairBody w pod value).1 →
          ∃ q ∈ pod :: pods, ∃ value name, eligible q = some value ∧
            selectContainer q value = (name, none) ∧ req = execRequest w.namespaceName q name := by
        intro hreq
        rcases hs : selectContainer pod value with ⟨name, _ | err⟩
        · rw [requests_repairBody_ok w pod value name hs] at hreq
          exact ⟨pod, List.mem_cons_self _ _, value, name, he, hs, by simpa using hreq⟩
        · rw [requests_repairBody_err w pod value name err hs] at hreq
          simp at hreq
      rcases hb : repairBody w pod value with ⟨events, _ | _⟩
      · rw [mainLoop_cons_next w pod pods value events he hb] at h
        simp only [requests_append, List.mem_append] at h
        rcases h with h | h
        · exact hin (by rw [hb]; exact h)
        · obtain ⟨q, hq, rest⟩ := ih h
          exact ⟨q, List.mem_cons_of_mem _ hq, rest⟩
      · rw [mainLoop_cons_ret w pod pods value events he hb] at h
        exact hin (by rw [hb]; exact h)

/-! ## C4 -/

/-- C4: two eligible pods, the executor cannot be set up for the first: the loop logs
the failure and `main` returns, so the second pod, although it passes the condition of
line 101, is never attempted. -/
theorem exec_setup_failure_ends_run :
    eligible podSingle = some "missing" ∧ eligible podPair = some "cassandra" ∧
      brokenWorld.NewSPDYExecutor (execRequest "db" podPair "cassandra") = none ∧
      mainLoop brokenWorld [podSingle, podPair] =
        ⟨[Event.select podSingle "missing",
          Event.log "Started repair of db/cassandra-0 [cassandra]\n",
          Event.request (execRequest "db" podSingle "cassandra"),
          Event.log "Failed to exec: unable to load root certificates"], true⟩ ∧
      selections (mainLoop brokenWorld [podSingle, podPair]).trace ≠
        markedRunning [podSingle, podPair] := by
  decide

/-! ## C5 -/

/-- C5: when `selectContainer` fails for an eligible pod of the listing, and executor
set-up succeeds for the requests of the other pods, the loop logs the failure, builds
no exec request for that pod, does not return, and attempts every eligible pod of the
listing in order: the pods before and after it contribute exactly what they contribute
on their own, each of their requests is built and streamed, and each of their attempts
is logged as finished. -/
theorem selection_failure_isolated (w : World) (before after : List Pod) (pod : Pod)
    (value : String)
    (hexec : ∀ q ∈ before ++ after, ∀ req,
      plannedRequest w q = some req → w.NewSPDYExecutor req = none)
    (hel : eligible pod = some value)
    (hsel : (selectContainer pod value).2 ≠ none) :
    (mainLoop w (before ++ pod :: after)).trace =
        (mainLoop w before).trace ++
          [Event.select pod value,
            Event.log ("Unable to match a container in " ++ pod.Name ++ ": " ++ "no such container")] ++
          (mainLoop w after).trace ∧
      requests (mainLoop w [pod]).trace = [] ∧
      (mainLoop w (before ++ pod :: after)).returned = false ∧
      selections (mainLoop w (before ++ pod :: after)).trace =
        markedRunning (before ++ pod :: after) ∧
      requests (mainLoop w (before ++ pod :: after)).trace =
        (before ++ after).filterMap (plannedRequest w) ∧
      streamed (mainLoop w (before ++ pod :: after)).trace =
        (before ++ after).filterMap (plannedRequest w) ∧
      (∀ q ∈ before ++ after, ∀ v name, eligible q = some v →
        selectContainer q v = (name, none) →
        ("Finished repair of " ++ q.Namespace ++ "/" ++ q.Name ++ " [" ++ name ++ "]\n") ∈
          logged (mainLoop w (before ++ pod :: after)).trace) := by
  have hb := mainLoop_of_exec_ok w before (fun q hq => hexec q (List.mem_append_left _ hq))
  have ha := mainLoop_of_exec_ok w after (fun q hq => hexec q (List.mem_append_right _ hq))
  obtain ⟨name, err, hs⟩ : ∃ name err, selectContainer pod value = (name, some err) := by
    rcases h : selectContainer pod value with ⟨name, _ | err⟩
    · rw [h] at hsel; simp at hsel
    · exact ⟨name, err, rfl⟩
  have herr := (selectContainer_err pod value name err hs).2
  have hbody : repairBody w pod value =
      ([Event.select pod value,
        Event.log ("Unable to match a container in " ++ pod.Name ++ ": " ++ "no such container")],
        Control.next) := by
    rcases repairBody_cases w pod value with ⟨_, e, h1, hb⟩ | ⟨_, _, h1, _, _⟩ | ⟨_, h1, _, _⟩
    · rw [hs] at h1
      simp only [Prod.mk.injEq, Option.some.injEq] at h1
      rw [hb, ← h1.2, herr]
    · rw [hs] at h1; simp at h1
    · rw [hs] at h1; simp at h1
  have htrace : mainLoop w (before ++ pod :: after) =
      ⟨(mainLoop w before).trace ++
          [Event.select pod value,
            Event.log ("Unable to match a container in " ++ pod.Name ++ ": " ++ "no such container")] ++
          (mainLoop w after).trace, false⟩ := by
    rw [mainLoop_append w before (pod :: after) hb.1,
      mainLoop_cons_next w pod after value _ hel hbody, ha.1]
    simp
  have hret : (mainLoop w (before ++ pod :: after)).returned = false := by rw [htrace]
  have hp : plannedRequest w pod = none := by simp [plannedRequest, hel, hs]
  refine ⟨by rw [htrace], ?_, hret, ?_, ?_, ?_, ?_⟩
  · rw [mainLoop_single w pod value hel, hbody]
    rfl
  · have := (selections_mainLoop_initial w (before ++ pod :: after)).2 hret
    rw [this, filterMap_eligible]
  · rw [htrace]
    simp [requests_append, requests, hb.2.1, ha.2.1]
  · rw [htrace]
    simp [streamed_append, streamed, hb.2.2.1, ha.2.2.1]
  · intro q hq v n hv hsn
    rw [htrace]
    simp only [logged_append, List.mem_append]
    rcases List.mem_append.1 hq with hq | hq
    · exact Or.inl (Or.inl (hb.2.2.2 q hq v n hv hsn))
    · exact Or.inr (ha.2.2.2 q hq v n hv hsn)

/-- C5 on three eligible pods of which the second fails target selection: the first
and the third are attempted and completed. -/
theorem selection_failure_isolated_witness :
    (∀ q ∈ [podSingle] ++ [podPair], ∀ req,
        plannedRequest quietWorld q = some req → quietWorld.NewSPDYExecutor req = none) ∧
      eligible podUnmatched = some "nodetool" ∧
      (selectContainer podUnmatched "nodetool").2 ≠ none ∧
      requests (mainLoop quietWorld ([podSingle] ++ podUnmatched :: [podPair])).trace =
        [execRequest "db" podSingle "cassandra", execRequest "db" podPair "cassandra"] ∧
      logged (mainLoop quietWorld ([podSingle] ++ podUnmatched :: [podPair])).trace =
        ["Started repair of db/cassandra-0 [cassandra]\n", "   Starting repair\n", "   Repair completed\n",
          "Finished repair of db/cassandra-0 [cassandra]\n",
          "Unable to match a container in cassandra-2: no such container",
          "Started repair of db/cassandra-1 [cassandra]\n", "   Starting repair\n", "   Repair completed\n",
          "Finished repair of db/cassandra-1 [cassandra]\n"] :=
  ⟨fun _ _ _ _ => rfl, by decide, by decide,
    ((selection_failure_isolated quietWorld [podSingle] [podPair] podUnmatched "nodetool"
      (fun _ _ _ _ => rfl) (by decide) (by decide)).2.2.2.2.1).trans (by decide),
    by decide⟩

/-! ## C6 -/

/-- C6: for a pod whose container names are pairwise distinct, a successful
`selectContainer` returns the name of exactly one container of the pod and the exec
request the loop builds for the pod targets that name; when `selectContainer` fails,
the loop builds no exec request for the pod. -/
theorem exactly_one_container_targeted (pod : Pod)
    (hdistinct : (pod.Spec.Containers.map (fun c => c.Name)).Nodup) :
    (∀ requested name, selectContainer pod requested = (name, none) →
        (pod.Spec.Containers.map (fun c => c.Name)).count name = 1) ∧
      (∀ (w : World) value name, eligible pod = some value →
        selectContainer pod value = (name, none) →
        (requests (mainLoop w [pod]).trace).map (fun req => req.Params.Container) = [name]) ∧
      (∀ (w : World) value name err, eligible pod = some value →
        selectContainer pod value = (name, some err) →
        requests (mainLoop w [pod]).trace = []) := by
  refine ⟨?_, ?_, ?_⟩
  · intro requested name h
    obtain ⟨c, hc, hn⟩ := selectContainer_mem pod requested name h
    exact List.count_eq_one_of_mem hdistinct (List.mem_map.2 ⟨c, hc, hn⟩)
  · intro w value name he hs
    rw [mainLoop_single w pod value he, requests_repairBody_ok w pod value name hs]
    rfl
  · intro w value name err he hs
    rw [mainLoop_single w pod value he, requests_repairBody_err w pod value name err hs]

/-- C6 at a pod with two distinct containers, for a matching and for an unmatched mark. -/
theorem exactly_one_container_targeted_witness :
    (podPair.Spec.Containers.map (fun c => c.Name)).Nodup ∧
      (podPair.Spec.Containers.map (fun c => c.Name)).count "cassandra" = 1 ∧
      (requests (mainLoop quietWorld [podPair]).trace).map (fun req => req.Params.Container) =
        ["cassandra"] :=
  ⟨by decide,
    (exactly_one_container_targeted podPair (by decide)).1 "cassandra" "cassandra" (by decide),
    (exactly_one_container_targeted podPair (by decide)).2.1 quietWorld "cassandra" "cassandra"
      (by decide) (by decide)⟩

/-! ## C7 -/

/-- C7: the exec request built for an eligible pod whose selection succeeds has the
command `nodetool repair -pr`, the selected container, the pod's name, the namespace
of the run and the stream flags Stdin=false, Stdout=true, Stderr=true, TTY=true; and
every request built in a run over any listing has that shape for some eligible pod of
the listing, so only the pod name and the container differ between requests. -/
theorem exec_request_contents (w : World) :
    (∀ pod value name, eligible pod = some value → selectContainer pod value = (name, none) →
        requests (mainLoop w [pod]).trace =
          [{ Resource := "pods", Name := pod.Name, Namespace := w.namespaceName,
             SubResource := "exec",
             Params := { Command := ["nodetool", "repair", "-pr"], Container := name,
                         Stdin := false, Stdout := true, Stderr := true, TTY := true } }]) ∧
      (∀ pods, ∀ req ∈ requests (mainLoop w pods).trace,
        req.Params.Command = ["nodetool", "repair", "-pr"] ∧
          req.Namespace = w.namespaceName ∧ req.Resource = "pods" ∧ req.SubResource = "exec" ∧
          req.Params.Stdin = false ∧ req.Params.Stdout = true ∧ req.Params.Stderr = true ∧
          req.Params.TTY = true ∧
          ∃ pod ∈ pods, ∃ value, eligible pod = some value ∧ req.Name = pod.Name ∧
            selectContainer pod value = (req.Params.Container, none)) := by
  refine ⟨?_, ?_⟩
  · intro pod value name he hs
    rw [mainLoop_single w pod value he, requests_repairBody_ok w pod value name hs]
    rfl
  · intro pods req hreq
    obtain ⟨pod, hp, value, name, he, hs, rfl⟩ := requests_mainLoop_mem w pods req hreq
    exact ⟨rfl, rfl, rfl, rfl, rfl, rfl, rfl, rfl, pod, hp, value, he, rfl, hs⟩

/-- C7 at a pod with two containers marked with the name of the first. -/
theorem exec_request_contents_witness :
    eligible podPair = some "cassandra" ∧ selectContainer podPair "cassandra" = ("cassandra", none) ∧
      requests (mainLoop quietWorld [podPair]).trace =
        [{ Resource := "pods", Name := "cassandra-1", Namespace := "db", SubResource := "exec",
           Params := { Command := ["nodetool", "repair", "-pr"], Container := "cassandra",
                       Stdin := false, Stdout := true, Stderr := true, TTY := true } }] :=
  ⟨by decide, by decide,
    (exec_request_contents quietWorld).1 podPair "cassandra" "cassandra" (by decide) (by decide)⟩

/-! ## Auxiliary lemmas on the scanner -/

theorem byteLen_append (a b : List Char) : byteLen (a ++ b) = byteLen a + byteLen b := by
  simp [byteLen]

theorem byteLen_replicate (n : Nat) : byteLen (List.replicate n 'a') = n := by
  induction n with
  | zero => rfl
  | succ n ih =>
    have h1 : Char.utf8Size 'a' = 1 := by decide
    have : byteLen ('a' :: List.replicate n 'a') = 1 + byteLen (List.replicate n 'a') := by
      simp [byteLen, h1]
    rw [List.replicate_succ, this, ih]; omega

theorem IndexByte_none (data : List Char) (c : Char) (h : c ∉ data) :
    IndexByte data c = none := by
  induction data with
  | nil => rfl
  | cons b data ih =>
    have hb : ¬ b = c := fun e => h (by simp [e])
    have hd : c ∉ data := fun e => h (List.mem_cons_of_mem _ e)
    simp [IndexByte, hb, ih hd]

theorem IndexByte_append (data rest : List Char) (c : Char) (h : c ∉ data) :
    IndexByte (data ++ c :: rest) c = some data.length := by
  induction data with
  | nil => simp [IndexByte]
  | cons b data ih =>
    have hb : ¬ b = c := fun e => h (by simp [e])
    have hd : c ∉ data := fun e => h (List.mem_cons_of_mem _ e)
    simp [IndexByte, hb, ih hd]

theorem ScanLines_pending (data : List Char) (h : '\n' ∉ data) :
    ScanLines data false = (0, none) := by
  simp [ScanLines, IndexByte_none data '\n' h]

theorem ScanLines_line (buf : List Char) (h : '\n' ∉ buf) :
    ScanLines (buf ++ ['\n']) false = (buf.length + 1, some (dropCR buf)) := by
  simp [ScanLines, IndexByte_append buf [] '\n' h]

theorem scanAll_line (maxTokenSize : Nat) (line : List Char) :
    ∀ (buf rest : List Char), '\n' ∉ buf → '\n' ∉ line →
      byteLen (buf ++ line) < maxTokenSize →
      Scanner.scanAll maxTokenSize buf (line ++ '\n' :: rest) =
        (Scanner.scanAll maxTokenSize [] rest).push (dropCR (buf ++ line)) := by
  induction line with
  | nil =>
    intro buf rest hb _ hlen
    have hlt : ¬ maxTokenSize ≤ byteLen buf := by simpa using hlen
    rw [List.nil_append, Scanner.scanAll]
    simp only [hlt, if_false, ScanLines_line buf hb]
    simp
  | cons c line ih =>
    intro buf rest hb hl hlen
    have hc : c ≠ '\n' := fun e => hl (by simp [e])
    have hl2 : '\n' ∉ line := fun e => hl (List.mem_cons_of_mem _ e)
    have hb2 : '\n' ∉ buf ++ [c] := by
      simp only [List.mem_append, List.mem_singleton, not_or]
      exact ⟨hb, fun e => hc e.symm⟩
    have hlt : ¬ maxTokenSize ≤ byteLen buf := by
      rw [byteLen_append] at hlen; omega
    have hlen2 : byteLen ((buf ++ [c]) ++ line) < maxTokenSize := by
      simpa using hlen
    rw [List.cons_append, Scanner.scanAll]
    simp only [hlt, if_false, ScanLines_pending (buf ++ [c]) hb2]
    rw [ih (buf ++ [c]) rest hb2 hl2 hlen2]
    simp

theorem scanAll_written (maxTokenSize : Nat) (hpos : 0 < maxTokenSize) (lines : List (List Char))
    (h : ∀ line ∈ lines, '\n' ∉ line ∧ byteLen line < maxTokenSize) :
    Scanner.scanAll maxTokenSize [] (written lines) = ⟨lines.map dropCR, none, []⟩ := by
  induction lines with
  | nil =>
    have : ¬ maxTokenSize ≤ byteLen [] := by simp [byteLen]; omega
    simp [written, Scanner.scanAll, this, ScanLines]
  | cons line lines ih =>
    have hl := h line (List.mem_cons_self _ _)
    have ih := ih (fun l hl => h l (List.mem_cons_of_mem _ hl))
    have hw : written (line :: lines) = line ++ '\n' :: written lines := by
      simp [written]
    rw [hw, scanAll_line maxTokenSize line [] (written lines) (by simp) hl.1 (by simpa using hl.2), ih]
    simp [ScanResult.push]

theorem scanAll_too_long (maxTokenSize : Nat) (line : List Char) :
    ∀ (buf rest : List Char), '\n' ∉ buf → '\n' ∉ line →
      maxTokenSize ≤ byteLen (buf ++ line) →
      (Scanner.scanAll maxTokenSize buf (line ++ rest)).tokens = [] ∧
        (Scanner.scanAll maxTokenSize buf (line ++ rest)).err = some ScanError.ErrTooLong := by
  induction line with
  | nil =>
    intro buf rest _ _ hlen
    have hle : maxTokenSize ≤ byteLen buf := by simpa using hlen
    cases rest with
    | nil => simp [Scanner.scanAll, hle]
    | cons c rest => simp [Scanner.scanAll, hle]
  | cons c line ih =>
    intro buf rest hb hl hlen
    have hc : c ≠ '\n' := fun e => hl (by simp [e])
    have hl2 : '\n' ∉ line := fun e => hl (List.mem_cons_of_mem _ e)
    have hb2 : '\n' ∉ buf ++ [c] := by
      simp only [List.mem_append, List.mem_singleton, not_or]
      exact ⟨hb, fun e => hc e.symm⟩
    by_cases hle : maxTokenSize ≤ byteLen buf
    · simp [Scanner.scanAll, hle]
    · have hlen2 : maxTokenSize ≤ byteLen ((buf ++ [c]) ++ line) := by simpa using hlen
      rw [List.cons_append, Scanner.scanAll]
      simp only [hle, if_false, ScanLines_pending (buf ++ [c]) hb2]
      exact ih (buf ++ [c]) rest hb2 hl2 hlen2

theorem scanAll_longLine (rest : List Char) :
    (Scanner.scanAll MaxScanTokenSize [] (longLine ++ rest)).tokens = [] ∧
      (Scanner.scanAll MaxScanTokenSize [] (longLine ++ rest)).err =
        some ScanError.ErrTooLong := by
  apply scanAll_too_long MaxScanTokenSize longLine [] rest (by simp)
  · unfold longLine
    intro h
    have := List.eq_of_mem_replicate h
    exact absurd this (by decide)
  · rw [List.nil_append, longLine, byteLen_replicate]

/-! ## Auxiliary lemmas on the messages of one iteration -/

theorem logged_relay (w : World) (req : ExecRequest) :
    logged (relay w req) =
      (Scanner.scanAll MaxScanTokenSize [] (w.StreamWithContext req).1).tokens.map
        (fun token => "   " ++ String.mk token ++ "\n") := by
  unfold relay
  simp [logged, logged_relayLog]

theorem logged_mainLoop_streamed (w : World) (pod : Pod) (value name : String)
    (hel : eligible pod = some value) (hs : selectContainer pod value = (name, none))
    (he : w.NewSPDYExecutor (execRequest w.namespaceName pod name) = none) :
    logged (mainLoop w [pod]).trace =
      ("Started repair of " ++ pod.Namespace ++ "/" ++ pod.Name ++ " [" ++ name ++ "]\n") ::
        logged (relay w (execRequest w.namespaceName pod name)) ++
        ["Finished repair of " ++ pod.Namespace ++ "/" ++ pod.Name ++ " [" ++ name ++ "]\n"] := by
  rw [mainLoop_single w pod value hel]
  rcases repairBody_cases w pod value with ⟨_, _, h1, _⟩ | ⟨n, _, h1, h2, _⟩ | ⟨n, h1, _, hb⟩
  · rw [hs] at h1; simp at h1
  · rw [hs] at h1
    simp only [Prod.mk.injEq, and_true] at h1
    subst h1
    rw [he] at h2; simp at h2
  · rw [hs] at h1
    simp only [Prod.mk.injEq, and_true] at h1
    subst h1
    rw [hb]
    generalize relay w (execRequest w.namespaceName pod name) = r
    simp [logged, logged_append]

/-! ## C8 -/

/-- C8: for a pod whose executor cannot be set up, the loop logs "Failed to exec: "
followed by the error, a message that does not contain the pod's name, whereas the
message of a failed container selection does contain it; the goroutine's message about
a failed stream does not contain the pod's name either, and a scanner stopped by an
over-long line leaves no message, the iteration being logged as finished. -/
theorem failure_messages_without_pod_name :
    (logged (mainLoop brokenWorld [podSingle]).trace =
        ["Started repair of db/cassandra-0 [cassandra]\n",
          "Failed to exec: unable to load root certificates"] ∧
      ¬ mentions "Failed to exec: unable to load root certificates" podSingle.Name) ∧
    (logged (mainLoop quietWorld [podUnmatched]).trace =
        ["Unable to match a container in cassandra-2: no such container"] ∧
      mentions "Unable to match a container in cassandra-2: no such container"
        podUnmatched.Name) ∧
    (streamed (mainLoop flakyWorld [podSingle]).trace = [execRequest "db" podSingle "cassandra"] ∧
      goroutineLog flakyWorld (execRequest "db" podSingle "cassandra") =
        ["Failed to get result: connection reset by peer"] ∧
      ¬ mentions "Failed to get result: connection reset by peer" podSingle.Name) ∧
    ((Scanner.scanAll MaxScanTokenSize []
          (longLineWorld.StreamWithContext (execRequest "db" podSingle "cassandra")).1).err =
        some ScanError.ErrTooLong ∧
      logged (mainLoop longLineWorld [podSingle]).trace =
        ["Started repair of db/cassandra-0 [cassandra]\n",
          "Finished repair of db/cassandra-0 [cassandra]\n"] ∧
      goroutineLog longLineWorld (execRequest "db" podSingle "cassandra") = []) := by
  refine ⟨⟨by decide, by decide⟩, ⟨by decide, by decide⟩, ⟨by decide, by decide, by decide⟩,
    ?_, ?_, rfl⟩
  · have hw : (longLineWorld.StreamWithContext (execRequest "db" podSingle "cassandra")).1 =
        longLine ++ ('\n' :: written ["Repair completed".data]) := by
      simp [longLineWorld, written]
    rw [hw]
    exact (scanAll_longLine _).2
  · have hw : (longLineWorld.StreamWithContext
          (execRequest longLineWorld.namespaceName podSingle "cassandra")).1 =
        longLine ++ ('\n' :: written ["Repair completed".data]) := by
      simp [longLineWorld, written]
    rw [logged_mainLoop_streamed longLineWorld podSingle "missing" "cassandra" (by decide)
        (by decide) rfl,
      logged_relay, hw, (scanAll_longLine _).1]
    decide

/-! ## C9 -/

/-- C9, as the code has it: when the remote stream writes lines that contain no line
feed and are each shorter than `bufio.MaxScanTokenSize` bytes, each followed by a line
feed, the scanner reads the whole stream, stops without error, and the loop logs one
message per line, in the order written: three spaces, the line without one final
carriage return, and a line feed; beside them the goroutine logs its message exactly
when the stream ended with an error. -/
theorem relay_order (w : World) (req : ExecRequest) (lines : List (List Char))
    (streamErr : Option GoError)
    (hstream : w.StreamWithContext req = (written lines, streamErr))
    (hlines : ∀ line ∈ lines, '\n' ∉ line ∧ byteLen line < MaxScanTokenSize) :
    Scanner.scanAll MaxScanTokenSize [] (written lines) = ⟨lines.map dropCR, none, []⟩ ∧
      logged (relay w req) =
        lines.map (fun line => "   " ++ String.mk (dropCR line) ++ "\n") ∧
      goroutineLog w req =
        (streamErr.map (fun err => "Failed to get result: " ++ err)).toList := by
  have hscan := scanAll_written MaxScanTokenSize (by decide) lines hlines
  refine ⟨hscan, ?_, ?_⟩
  · rw [logged_relay, hstream, hscan]
    simp
  · unfold goroutineLog
    rw [hstream]
    cases streamErr <;> simp [hscan]

/-- C9, as the code has it, on two lines ended by carriage return and line feed. -/
theorem relay_order_witness :
    quietWorld.StreamWithContext (execRequest "db" podSingle "cassandra") =
        (written ["Starting repair\r".data, "Repair completed\r".data], none) ∧
      (∀ line ∈ ["Starting repair\r".data, "Repair completed\r".data],
        '\n' ∉ line ∧ byteLen line < MaxScanTokenSize) ∧
      logged (relay quietWorld (execRequest "db" podSingle "cassandra")) =
        ["   Starting repair\n", "   Repair completed\n"] :=
  ⟨by decide, by decide,
    ((relay_order quietWorld (execRequest "db" podSingle "cassandra")
      ["Starting repair\r".data, "Repair completed\r".data] none (by decide) (by decide)).2.1).trans
      (by decide)⟩

/-- C9 fails as stated: a first line of `bufio.MaxScanTokenSize` letters stops the
scanner with `ErrTooLong`, so neither that line nor the line after it is logged; and a
line that ends in a carriage return is logged without it. -/
theorem relay_order_counterexample :
    (logged (relay longLineWorld (execRequest "db" podSingle "cassandra")) = [] ∧
      (Scanner.scanAll MaxScanTokenSize [] (written [longLine, "Repair completed".data])).err =
        some ScanError.ErrTooLong) ∧
    (Scanner.scanAll MaxScanTokenSize [] (written ["done\r".data])).tokens = ["done".data] := by
  have hw : written [longLine, "Repair completed".data] =
      longLine ++ ('\n' :: written ["Repair completed".data]) := by
    simp [written]
  refine ⟨⟨?_, ?_⟩, by decide⟩
  · have hs : longLineWorld.StreamWithContext (execRequest "db" podSingle "cassandra") =
        (longLine ++ ('\n' :: written ["Repair completed".data]), none) := by
      simp [longLineWorld, written]
    rw [logged_relay, hs, (scanAll_longLine _).1]
    rfl
  · rw [hw]
    exact (scanAll_longLine _).2

/-! ## C10 -/

/-- C10, as the code has it: for a running pod with more than one container, when the
autorepair annotation is present with the empty string as its value the loop calls
`selectContainer` with the empty string, which fails with "no such container" unless a
container is named with the empty string; when the annotation is absent the pod is
skipped and no selection is attempted. -/
theorem empty_mark_selection (w : World) (pod : Pod)
    (hphase : pod.Status.Phase = PodRunning) (hmany : 1 < pod.Spec.Containers.length) :
    (pod.Annotations.lookup autoRepairAnnotation = some "" →
        selections (mainLoop w [pod]).trace = [(pod, "")] ∧
          ((∃ c ∈ pod.Spec.Containers, c.Name = "") → selectContainer pod "" = ("", none)) ∧
          ((¬ ∃ c ∈ pod.Spec.Containers, c.Name = "") →
            selectContainer pod "" = ("", some "no such container") ∧
              (mainLoop w [pod]).trace =
                [Event.select pod "",
                  Event.log ("Unable to match a container in " ++ pod.Name ++ ": " ++
                    "no such container")])) ∧
      (pod.Annotations.lookup autoRepairAnnotation = none → (mainLoop w [pod]).trace = []) := by
  have hne : pod.Spec.Containers.length ≠ 1 := by omega
  have hsel := selectContainer_many pod "" hne
  refine ⟨fun hmark => ?_, fun hmark => ?_⟩
  · have hel : eligible pod = some "" := (eligible_eq_some pod "").2 ⟨hmark, hphase⟩
    refine ⟨?_, hsel.2.1, fun hno => ⟨hsel.2.2 hno, ?_⟩⟩
    · rw [mainLoop_single w pod "" hel, selections_repairBody]
    · rw [mainLoop_single w pod "" hel]
      rcases repairBody_cases w pod "" with ⟨_, e, h1, hb⟩ | ⟨_, _, h1, _, _⟩ | ⟨_, h1, _, _⟩
      · rw [hsel.2.2 hno] at h1
        simp only [Prod.mk.injEq, Option.some.injEq] at h1
        rw [hb, ← h1.2]
      · rw [hsel.2.2 hno] at h1; simp at h1
      · rw [hsel.2.2 hno] at h1; simp at h1
  · have hel : eligible pod = none := (eligible_eq_none pod).2 (Or.inl hmark)
    rw [mainLoop_cons_skip w pod [] hel]
    rfl

/-- C10, as the code has it, at a running pod with two containers marked with the
empty string. -/
theorem empty_mark_selection_witness :
    podEmptyMark.Status.Phase = PodRunning ∧ 1 < podEmptyMark.Spec.Containers.length ∧
      podEmptyMark.Annotations.lookup autoRepairAnnotation = some "" ∧
      selections (mainLoop quietWorld [podEmptyMark]).trace = [(podEmptyMark, "")] ∧
      logged (mainLoop quietWorld [podEmptyMark]).trace =
        ["Unable to match a container in cassandra-5: no such container"] :=
  ⟨by decide, by decide, by decide,
    ((empty_mark_selection quietWorld podEmptyMark (by decide) (by decide)).1 (by decide)).1,
    by decide⟩

/-- C10 fails as stated: a running pod with two containers and no autorepair
annotation does not pass the condition of line 101, so the loop attempts no selection
for it and logs nothing. -/
theorem empty_mark_selection_counterexample :
    podUnmarked.Status.Phase = PodRunning ∧ 1 < podUnmarked.Spec.Containers.length ∧
      podUnmarked.Annotations.lookup autoRepairAnnotation = none ∧
      eligible podUnmarked = none ∧
      selections (mainLoop quietWorld [podUnmarked]).trace = [] ∧
      (mainLoop quietWorld [podUnmarked]).trace = [] := by
  decide
